import Mathlib

/-!
Verification of the flow-vault settlement core
(src/anchor/programs/flow-vault).

The repository source contains the program dispatcher (`lib.rs`), the
`register_provider` instruction (handler and account constraints), and the
`Provider` account layout.  The bodies of the remaining instruction
handlers (`init_config`, `create_vault`, `settle_batch`, `withdraw`,
`emergency_pause`) are declared in `lib.rs` but their modules are not part
of the available source; those operations are modelled from the
specification (each such definition carries a doc comment starting with
`Modelled from the spec:`).

Machine integers (`u64`, `u16`) are embedded as `Nat`; the only arithmetic
the spec prescribes (`fee = amount * fee_bps / 10000`, guarded
subtraction of `amount <= balance`) stays within `u64` range whenever the
inputs do, so no wrap-around is modelled.  Account addresses (`Pubkey`)
are embedded as `Nat`.  The external value-transfer primitive is modelled
by a `transferOk` flag (its success/failure is decided outside the core)
together with a ledger of executed transfers.
-/

namespace FlowVault

/-- Solana account address; opaque 32-byte key, embedded as `Nat`. -/
abbrev Pubkey := Nat

/-- Singleton protocol configuration record (spec section 3).
`fee_bps` is a `u16` basis-points fee rate. -/
structure ProtocolConfig where
  authority : Pubkey
  settle_threshold : Nat
  fee_bps : Nat
  deriving Repr, DecidableEq

/-- Provider record, from src/anchor/programs/flow-vault/src/state/provider.rs:
`authority : Pubkey`, `destination : Pubkey`, `reserved : [u8; 128]`. -/
structure Provider where
  authority : Pubkey
  destination : Pubkey
  reserved : List Nat
  deriving Repr, DecidableEq

/-- The all-zero value of the 128-byte `reserved` padding, the value the
allocation primitive gives a freshly initialised account. -/
def zeroReserved : List Nat := List.replicate 128 0

/-- Per-depositor vault record (spec section 3: owner, balance, nonce,
pause flag). -/
structure Vault where
  owner : Pubkey
  balance : Nat
  nonce : Nat
  paused : Bool
  deriving Repr, DecidableEq

/-- SPL token account as seen by `register_provider` (only its address
matters to the handler; owner and amount are carried to show they are
never touched). -/
structure TokenAccount where
  key : Pubkey
  owner : Pubkey
  amount : Nat
  deriving Repr, DecidableEq

/-- One executed call of the external value-transfer primitive. -/
structure Transfer where
  src : Pubkey
  dst : Pubkey
  amount : Nat
  deriving Repr, DecidableEq

/-- Events emitted by the program (spec section 3). -/
inductive Event where
  | VaultCreated : Pubkey → Nat → Event
  | BatchSettled : Nat → Nat → Nat → Event
  | Withdrawn : Nat → Event
  | PauseToggled : Bool → Event
  deriving Repr, DecidableEq

/-- Error taxonomy (spec section 7), plus the record store's `NotFound`. -/
inductive Err where
  | AlreadyInitialized
  | InvalidFeeRate
  | DuplicateProvider
  | DuplicateVault
  | ZeroDeposit
  | InvalidNonce
  | InsufficientBalance
  | NothingToWithdraw
  | VaultPaused
  | Unauthorized
  | TransferError
  | AccountNotFound
  deriving Repr, DecidableEq

/-- The persisted state of one deployment: the config singleton, the
provider records keyed by their authority (the derived-address map), the
vault records keyed by their owner, the emitted events and the executed
external transfers. -/
structure World where
  config : Option ProtocolConfig
  providers : Pubkey → Option Provider
  vaults : Pubkey → Option Vault
  events : List Event
  ledger : List Transfer

/-- Point update of the provider map at one derived address. -/
def updProviders (g : Pubkey → Option Provider) (k : Pubkey)
    (p : Provider) : Pubkey → Option Provider :=
  fun a => if a = k then some p else g a

/-- Point update of the vault map at one derived address. -/
def updVaults (g : Pubkey → Option Vault) (k : Pubkey) (v : Vault) :
    Pubkey → Option Vault :=
  fun a => if a = k then some v else g a

/-- `fee = amount * fee_bps / 10000` (integer division, truncation toward
zero), as the spec states the settlement computation. -/
def fee (amount fee_bps : Nat) : Nat := amount * fee_bps / 10000

/-- `payout = amount - fee`. -/
def payout (amount fee_bps : Nat) : Nat := amount - fee amount fee_bps

/-- Modelled from the spec: the `init_config` handler body is not under
src/ (only its `initialize_config` entry in lib.rs is).  Spec 4.1: fails
with `AlreadyInitialized` if a config exists, with `InvalidFeeRate` if
`fee_bps > 10000`; on success persists the record with the caller as
`authority`. -/
def initialize_config (w : World) (caller : Pubkey)
    (settle_threshold fee_bps : Nat) : Except Err World :=
  match w.config with
  | some _ => .error .AlreadyInitialized
  | none =>
    if fee_bps > 10000 then .error .InvalidFeeRate
    else .ok { w with config := some ⟨caller, settle_threshold, fee_bps⟩ }

/-- Embeds src/anchor/programs/flow-vault/src/instructions/register_provider.rs
at the account level: the `init` constraint on the `provider` account
(seeds `["provider", authority]`) makes allocation fail when the record
already exists (spec names this `DuplicateProvider`); a fresh account is
zero-filled, then the handler stores `authority` and `destination`. -/
def register_provider (w : World) (authority destination : Pubkey) :
    Except Err World :=
  match w.providers authority with
  | some _ => .error .DuplicateProvider
  | none =>
    .ok { w with providers := (updProviders w.providers authority
        ⟨authority, destination, zeroReserved⟩) }

/-- Accounts of the `RegisterProvider` context: the signer, the freshly
initialised provider record, and the destination token account. -/
structure RegisterProviderAccounts where
  authority : Pubkey
  provider : Provider
  destination : TokenAccount
  deriving Repr, DecidableEq

/-- Embeds the handler of
src/anchor/programs/flow-vault/src/instructions/register_provider.rs
(lines 5-10) verbatim: it assigns `provider.authority` and
`provider.destination` and returns `Ok(())`. -/
def handler (accounts : RegisterProviderAccounts) :
    Except Err RegisterProviderAccounts :=
  .ok { accounts with
    provider := { accounts.provider with
      authority := accounts.authority
      destination := accounts.destination.key } }

/-- Modelled from the spec: the `create_vault` handler body is not under
src/ (only its entry in lib.rs is).  Spec 4.3: `ZeroDeposit` if
`deposit_amount == 0`; `DuplicateVault` if a vault exists for this owner;
moves the deposit via the external transfer primitive (failure aborts the
whole operation); on success `balance = deposit_amount`, `nonce = 0`,
`paused = false`, emits `VaultCreated`. -/
def create_vault (w : World) (owner : Pubkey) (deposit_amount : Nat)
    (transferOk : Bool) : Except Err World :=
  if deposit_amount = 0 then .error .ZeroDeposit
  else match w.vaults owner with
  | some _ => .error .DuplicateVault
  | none =>
    if transferOk = false then .error .TransferError
    else
      .ok { w with
        vaults := updVaults w.vaults owner ⟨owner, deposit_amount, 0, false⟩
        events := .VaultCreated owner deposit_amount :: w.events
        ledger := ⟨owner, owner, deposit_amount⟩ :: w.ledger }

/-- Modelled from the spec: the `settle_batch` handler body is not under
src/ (only its entry in lib.rs, taking `amount` and `nonce`, is).
Spec 4.4, preconditions in order: `paused == false` else `VaultPaused`;
supplied nonce equals the vault nonce else `InvalidNonce`; `amount > 0`
and `amount <= balance` else `InsufficientBalance` (the threshold policy
is the spec's documented default of no enforcement).  Computation:
`fee = amount * fee_bps / 10000`, `payout = amount - fee`; payout goes to
the provider destination `dest`, the fee to the injected fee sink; on
success `balance -= amount`, `nonce += 1`, emits `BatchSettled`; the
whole operation is one atomic unit with the external transfers. -/
def settle_batch (w : World) (owner : Pubkey) (amount nonce : Nat)
    (dest feeSink : Pubkey) (transferOk : Bool) : Except Err World :=
  match w.config with
  | none => .error .AccountNotFound
  | some cfg =>
    match w.vaults owner with
    | none => .error .AccountNotFound
    | some v =>
      if v.paused then .error .VaultPaused
      else if nonce ≠ v.nonce then .error .InvalidNonce
      else if ¬(0 < amount ∧ amount ≤ v.balance) then
        .error .InsufficientBalance
      else if transferOk = false then .error .TransferError
      else
        .ok { w with
          vaults := updVaults w.vaults owner
            { v with balance := v.balance - amount, nonce := v.nonce + 1 }
          events := .BatchSettled amount nonce (fee amount cfg.fee_bps)
                      :: w.events
          ledger := ⟨owner, feeSink, fee amount cfg.fee_bps⟩ ::
                    ⟨owner, dest, payout amount cfg.fee_bps⟩ :: w.ledger }

/-- Modelled from the spec: the `withdraw` handler body is not under src/
(its entry in lib.rs shows it takes no amount parameter).  Spec 4.5:
`VaultPaused` if paused, `NothingToWithdraw` if `balance == 0`; withdraws
the full current balance to the owner, atomically with the transfer; on
success `balance = 0`, emits `Withdrawn(amount)`. -/
def withdraw (w : World) (owner : Pubkey) (transferOk : Bool) :
    Except Err World :=
  match w.vaults owner with
  | none => .error .AccountNotFound
  | some v =>
    if v.paused then .error .VaultPaused
    else if v.balance = 0 then .error .NothingToWithdraw
    else if transferOk = false then .error .TransferError
    else
      .ok { w with
        vaults := updVaults w.vaults owner { v with balance := 0 }
        events := .Withdrawn v.balance :: w.events
        ledger := ⟨owner, owner, v.balance⟩ :: w.ledger }

/-- Modelled from the spec: the `emergency_pause` handler body is not
under src/ (only its entry in lib.rs, taking `paused : bool`, is).
Spec 4.6: `Unauthorized` unless the caller is the config authority; sets
the pause flag (the vault-level flag of the spec's data model) to the
supplied value unconditionally, emits `PauseToggled`. -/
def emergency_pause (w : World) (caller owner : Pubkey) (p : Bool) :
    Except Err World :=
  match w.config with
  | none => .error .AccountNotFound
  | some cfg =>
    if caller ≠ cfg.authority then .error .Unauthorized
    else match w.vaults owner with
    | none => .error .AccountNotFound
    | some v =>
      .ok { w with
        vaults := updVaults w.vaults owner { v with paused := p }
        events := .PauseToggled p :: w.events }

/-- One instruction of the program, with the external-transfer outcome it
observes. -/
inductive Op where
  | initConfig (caller : Pubkey) (settle_threshold fee_bps : Nat)
  | regProvider (authority destination : Pubkey)
  | createVault (owner : Pubkey) (deposit_amount : Nat) (transferOk : Bool)
  | settleBatch (owner : Pubkey) (amount nonce : Nat)
      (dest feeSink : Pubkey) (transferOk : Bool)
  | withdrawAll (owner : Pubkey) (transferOk : Bool)
  | pauseToggle (caller owner : Pubkey) (p : Bool)
  deriving Repr, DecidableEq

/-- Dispatcher, following src/anchor/programs/flow-vault/src/lib.rs. -/
def execOp (w : World) : Op → Except Err World
  | .initConfig caller st f => initialize_config w caller st f
  | .regProvider a d => register_provider w a d
  | .createVault o d t => create_vault w o d t
  | .settleBatch o a n d s t => settle_batch w o a n d s t
  | .withdrawAll o t => withdraw w o t
  | .pauseToggle c o p => emergency_pause w c o p

/-- The persisted state after an operation: a successful operation
commits its new state, a failed one commits nothing. -/
def stepWorld (w : World) (op : Op) : World :=
  match execOp w op with
  | .ok w' => w'
  | .error _ => w

/-- The state committed by a successful settlement. -/
def settledWorld (w : World) (o : Pubkey) (a n : Nat) (d s : Pubkey)
    (cfg : ProtocolConfig) (v : Vault) : World :=
  { w with
    vaults := updVaults w.vaults o
      { v with balance := v.balance - a, nonce := v.nonce + 1 }
    events := .BatchSettled a n (fee a cfg.fee_bps) :: w.events
    ledger := ⟨o, s, fee a cfg.fee_bps⟩ ::
              ⟨o, d, payout a cfg.fee_bps⟩ :: w.ledger }

theorem stepWorld_of_error {w : World} {op : Op} {e : Err}
    (h : execOp w op = .error e) : stepWorld w op = w := by
  unfold stepWorld
  rw [h]

theorem settle_batch_ok_inv {w w' : World} {o : Pubkey} {a n : Nat}
    {d s : Pubkey} {t : Bool}
    (h : settle_batch w o a n d s t = .ok w') :
    ∃ cfg v, w.config = some cfg ∧ w.vaults o = some v ∧
      v.paused = false ∧ n = v.nonce ∧ 0 < a ∧ a ≤ v.balance ∧
      t = true ∧ w' = settledWorld w o a n d s cfg v := by
  unfold settle_batch at h
  split at h
  · exact Except.noConfusion h
  next cfg hcfg =>
    split at h
    · exact Except.noConfusion h
    next v hv =>
      split at h
      · exact Except.noConfusion h
      next hp =>
        split at h
        · exact Except.noConfusion h
        next hn =>
          split at h
          · exact Except.noConfusion h
          next hab =>
            split at h
            · exact Except.noConfusion h
            next ht =>
              injection h with h
              refine ⟨cfg, v, hcfg, hv, by simpa using hp,
                not_not.mp hn, (not_not.mp hab).1, (not_not.mp hab).2,
                by simpa using ht, h.symm⟩

theorem settle_batch_ok_of {w : World} {o : Pubkey} {a n : Nat}
    {d s : Pubkey} {cfg : ProtocolConfig} {v : Vault}
    (hcfg : w.config = some cfg) (hv : w.vaults o = some v)
    (hp : v.paused = false) (hn : n = v.nonce) (ha0 : 0 < a)
    (hab : a ≤ v.balance) :
    settle_batch w o a n d s true = .ok (settledWorld w o a n d s cfg v) := by
  unfold settle_batch
  rw [hcfg, hv]
  simp [hp, hn, ha0, hab, settledWorld, hcfg]

theorem settle_batch_paused {w : World} {o : Pubkey} {a n : Nat}
    {d s : Pubkey} {t : Bool} {cfg : ProtocolConfig} {v : Vault}
    (hcfg : w.config = some cfg) (hv : w.vaults o = some v)
    (hp : v.paused = true) :
    settle_batch w o a n d s t = .error .VaultPaused := by
  unfold settle_batch
  rw [hcfg, hv]
  simp [hp]

theorem settle_batch_bad_nonce {w : World} {o : Pubkey} {a n : Nat}
    {d s : Pubkey} {t : Bool} {cfg : ProtocolConfig} {v : Vault}
    (hcfg : w.config = some cfg) (hv : w.vaults o = some v)
    (hp : v.paused = false) (hn : n ≠ v.nonce) :
    settle_batch w o a n d s t = .error .InvalidNonce := by
  unfold settle_batch
  rw [hcfg, hv]
  simp [hp, hn]

theorem withdraw_ok_inv {w w' : World} {o : Pubkey} {t : Bool}
    (h : withdraw w o t = .ok w') :
    ∃ v, w.vaults o = some v ∧ v.paused = false ∧ 0 < v.balance ∧
      t = true ∧
      w' = { w with
        vaults := updVaults w.vaults o { v with balance := 0 }
        events := .Withdrawn v.balance :: w.events
        ledger := ⟨o, o, v.balance⟩ :: w.ledger } := by
  unfold withdraw at h
  split at h
  · exact Except.noConfusion h
  next v hv =>
    split at h
    · exact Except.noConfusion h
    next hp =>
      split at h
      · exact Except.noConfusion h
      next hb =>
        split at h
        · exact Except.noConfusion h
        next ht =>
          injection h with h
          exact ⟨v, hv, by simpa using hp, Nat.pos_of_ne_zero hb,
            by simpa using ht, h.symm⟩

theorem withdraw_ok_of {w : World} {o : Pubkey} {v : Vault}
    (hv : w.vaults o = some v) (hp : v.paused = false)
    (hb : 0 < v.balance) :
    withdraw w o true = .ok { w with
      vaults := updVaults w.vaults o { v with balance := 0 }
      events := .Withdrawn v.balance :: w.events
      ledger := ⟨o, o, v.balance⟩ :: w.ledger } := by
  unfold withdraw
  rw [hv]
  simp [hp, Nat.pos_iff_ne_zero.mp hb]

theorem withdraw_paused {w : World} {o : Pubkey} {t : Bool} {v : Vault}
    (hv : w.vaults o = some v) (hp : v.paused = true) :
    withdraw w o t = .error .VaultPaused := by
  unfold withdraw
  rw [hv]
  simp [hp]

theorem withdraw_empty {w : World} {o : Pubkey} {t : Bool} {v : Vault}
    (hv : w.vaults o = some v) (hp : v.paused = false)
    (hb : v.balance = 0) :
    withdraw w o t = .error .NothingToWithdraw := by
  unfold withdraw
  rw [hv]
  simp [hp, hb]

theorem create_vault_ok_inv {w w' : World} {o : Pubkey} {d : Nat}
    {t : Bool} (h : create_vault w o d t = .ok w') :
    d ≠ 0 ∧ w.vaults o = none ∧ t = true ∧
      w' = { w with
        vaults := updVaults w.vaults o ⟨o, d, 0, false⟩
        events := .VaultCreated o d :: w.events
        ledger := ⟨o, o, d⟩ :: w.ledger } := by
  unfold create_vault at h
  split at h
  · exact Except.noConfusion h
  next hd =>
    split at h
    · exact Except.noConfusion h
    next hv =>
      split at h
      · exact Except.noConfusion h
      next ht =>
        injection h with h
        exact ⟨hd, hv, by simpa using ht, h.symm⟩

theorem create_vault_ok_of {w : World} {o : Pubkey} {d : Nat}
    (hd : d ≠ 0) (hv : w.vaults o = none) :
    create_vault w o d true = .ok { w with
      vaults := updVaults w.vaults o ⟨o, d, 0, false⟩
      events := .VaultCreated o d :: w.events
      ledger := ⟨o, o, d⟩ :: w.ledger } := by
  unfold create_vault
  rw [hv]
  simp [hd]

theorem create_vault_zero {w : World} {o : Pubkey} {t : Bool} :
    create_vault w o 0 t = .error .ZeroDeposit := by
  unfold create_vault
  simp

theorem create_vault_dup {w : World} {o : Pubkey} {d : Nat} {t : Bool}
    {v : Vault} (hd : d ≠ 0) (hv : w.vaults o = some v) :
    create_vault w o d t = .error .DuplicateVault := by
  unfold create_vault
  rw [hv]
  simp [hd]

theorem initialize_config_dup {w : World} {caller : Pubkey}
    {st f : Nat} {cfg : ProtocolConfig} (hc : w.config = some cfg) :
    initialize_config w caller st f = .error .AlreadyInitialized := by
  unfold initialize_config
  rw [hc]

theorem initialize_config_bad_fee {w : World} {caller : Pubkey}
    {st f : Nat} (hc : w.config = none) (hf : f > 10000) :
    initialize_config w caller st f = .error .InvalidFeeRate := by
  unfold initialize_config
  rw [hc]
  simp [hf]

theorem initialize_config_ok_of {w : World} {caller : Pubkey}
    {st f : Nat} (hc : w.config = none) (hf : f ≤ 10000) :
    initialize_config w caller st f =
      .ok { w with config := some ⟨caller, st, f⟩ } := by
  unfold initialize_config
  rw [hc]
  simp [Nat.not_lt.mpr hf]

theorem initialize_config_ok_inv {w w' : World} {caller : Pubkey}
    {st f : Nat} (h : initialize_config w caller st f = .ok w') :
    w.config = none ∧ f ≤ 10000 ∧
      w' = { w with config := some ⟨caller, st, f⟩ } := by
  unfold initialize_config at h
  split at h
  · exact Except.noConfusion h
  next hc =>
    split at h
    · exact Except.noConfusion h
    next hf =>
      injection h with h
      exact ⟨hc, Nat.not_lt.mp hf, h.symm⟩

theorem register_provider_dup {w : World} {auth dest : Pubkey}
    {p : Provider} (hp : w.providers auth = some p) :
    register_provider w auth dest = .error .DuplicateProvider := by
  unfold register_provider
  rw [hp]

theorem register_provider_ok_of {w : World} {auth dest : Pubkey}
    (hp : w.providers auth = none) :
    register_provider w auth dest = .ok { w with providers :=
      (updProviders w.providers auth ⟨auth, dest, zeroReserved⟩) } := by
  unfold register_provider
  rw [hp]

theorem emergency_pause_ok_inv {w w' : World} {caller o : Pubkey}
    {p : Bool} (h : emergency_pause w caller o p = .ok w') :
    ∃ cfg v, w.config = some cfg ∧ caller = cfg.authority ∧
      w.vaults o = some v ∧
      w' = { w with
        vaults := updVaults w.vaults o { v with paused := p }
        events := .PauseToggled p :: w.events } := by
  unfold emergency_pause at h
  split at h
  · exact Except.noConfusion h
  next cfg hcfg =>
    split at h
    · exact Except.noConfusion h
    next hauth =>
      split at h
      · exact Except.noConfusion h
      next v hv =>
        injection h with h
        exact ⟨cfg, v, hcfg, not_not.mp hauth, hv, h.symm⟩

theorem emergency_pause_ok_of {w : World} {caller o : Pubkey} {p : Bool}
    {cfg : ProtocolConfig} {v : Vault} (hcfg : w.config = some cfg)
    (hauth : caller = cfg.authority) (hv : w.vaults o = some v) :
    emergency_pause w caller o p = .ok { w with
      vaults := updVaults w.vaults o { v with paused := p }
      events := .PauseToggled p :: w.events } := by
  unfold emergency_pause
  rw [hcfg]
  simp [hauth, hv]

theorem register_provider_ok_inv {w w' : World} {auth dest : Pubkey}
    (h : register_provider w auth dest = .ok w') :
    w.providers auth = none ∧
    w' = { w with providers :=
      (updProviders w.providers auth ⟨auth, dest, zeroReserved⟩) } := by
  unfold register_provider at h
  split at h
  · exact Except.noConfusion h
  next hp =>
    injection h with h
    exact ⟨hp, h.symm⟩

theorem updVaults_self (g : Pubkey → Option Vault) (k : Pubkey)
    (v : Vault) : updVaults g k v k = some v := by
  simp [updVaults]

theorem updVaults_other (g : Pubkey → Option Vault) (k : Pubkey)
    (v : Vault) {a : Pubkey} (h : a ≠ k) : updVaults g k v a = g a := by
  simp [updVaults, h]

theorem updProviders_self (g : Pubkey → Option Provider) (k : Pubkey)
    (p : Provider) : updProviders g k p k = some p := by
  simp [updProviders]

/-- `true` exactly on a committed (successful) result. -/
def isOk : Except Err World → Bool
  | .ok _ => true
  | .error _ => false

/-- One settlement request of a submitted sequence. -/
structure SettleReq where
  amount : Nat
  nonce : Nat
  dest : Pubkey
  feeSink : Pubkey
  transferOk : Bool
  deriving Repr, DecidableEq

/-- Runs a sequence of `settle_batch` calls against one vault, stopping
at the first failure. -/
def settleSeq (w : World) (owner : Pubkey) :
    List SettleReq → Except Err World
  | [] => .ok w
  | r :: rs =>
    match settle_batch w owner r.amount r.nonce r.dest r.feeSink
        r.transferOk with
    | .error e => .error e
    | .ok w' => settleSeq w' owner rs

theorem settle_batch_vault {w w' : World} {o : Pubkey} {a n : Nat}
    {d s : Pubkey} {t : Bool} (h : settle_batch w o a n d s t = .ok w')
    {v : Vault} (hv : w.vaults o = some v) :
    w'.vaults o =
      some { v with balance := v.balance - a, nonce := v.nonce + 1 } := by
  obtain ⟨cfg, v', _, hv', _, _, _, _, _, hw⟩ := settle_batch_ok_inv h
  rw [hv] at hv'
  injection hv' with hv'
  subst hv'
  rw [hw]
  simp [settledWorld, updVaults_self]

theorem settleSeq_nonce {o : Pubkey} :
    ∀ (rs : List SettleReq) (w w' : World) (v : Vault),
      settleSeq w o rs = .ok w' → w.vaults o = some v →
      ∃ v', w'.vaults o = some v' ∧ v'.nonce = v.nonce + rs.length := by
  intro rs
  induction rs with
  | nil =>
    intro w w' v h hv
    simp only [settleSeq] at h
    injection h with h
    subst h
    exact ⟨v, hv, by simp⟩
  | cons r rs ih =>
    intro w w' v h hv
    simp only [settleSeq] at h
    split at h
    · exact Except.noConfusion h
    next w1 hw1 =>
      have hv1 := settle_batch_vault hw1 hv
      obtain ⟨v', hv', hn⟩ := ih w1 w' _ h hv1
      refine ⟨v', hv', ?_⟩
      simp at hn
      simp [hn]
      omega

/-- A concrete deployment used to exercise the theorems: a config with
authority key 100 and a 2.5% fee, and one vault owned by key 1 holding
1000 at nonce 0, unpaused. -/
def cfgEx : ProtocolConfig := ⟨100, 0, 250⟩

/-- The vault of `wEx`. -/
def vaultEx : Vault := ⟨1, 1000, 0, false⟩

/-- The concrete deployment state. -/
def wEx : World :=
  { config := some cfgEx
    providers := fun _ => none
    vaults := fun o => if o = 1 then some vaultEx else none
    events := []
    ledger := [] }

/-- Claim C2: in `settle_batch`, for every `amount` and every `fee_bps`
with `0 <= fee_bps <= 10000`, `fee = amount * fee_bps / 10000` with
truncating integer division and `payout = amount - fee`, hence
`0 <= fee <= amount` and `payout + fee == amount` exactly; in particular
`fee_bps = 10000` on `amount = 100` yields `fee = 100`, `payout = 0`.
The emitted `BatchSettled` event carries exactly this fee. -/
theorem claim2_fee_arithmetic :
    (∀ a bps, bps ≤ 10000 →
      fee a bps = a * bps / 10000 ∧ payout a bps = a - fee a bps ∧
      fee a bps ≤ a ∧ payout a bps + fee a bps = a) ∧
    fee 100 10000 = 100 ∧ payout 100 10000 = 0 ∧
    (∀ w w' o a n d s t cfg, w.config = some cfg →
      settle_batch w o a n d s t = .ok w' →
      w'.events.head? = some (.BatchSettled a n (fee a cfg.fee_bps))) := by
  refine ⟨?_, by decide, by decide, ?_⟩
  · intro a bps h
    have hle : fee a bps ≤ a := by
      unfold fee
      calc a * bps / 10000 ≤ a * 10000 / 10000 :=
            Nat.div_le_div_right (Nat.mul_le_mul_left a h)
        _ = a := by omega
    exact ⟨rfl, rfl, hle, Nat.sub_add_cancel hle⟩
  · intro w w' o a n d s t cfg hcfg h
    obtain ⟨cfg', v, hcfg', hv, hp, hn, ha, hb, ht, hw⟩ :=
      settle_batch_ok_inv h
    rw [hcfg] at hcfg'
    injection hcfg' with hcfg'
    subst hcfg'
    rw [hw]
    simp [settledWorld]

/-- Witness for claim C2 at `amount = 400`, `fee_bps = 250` (the spec's
end-to-end example: fee 10, payout 390). -/
theorem claim2_witness :
    fee 400 250 ≤ 400 ∧ payout 400 250 + fee 400 250 = 400 :=
  ⟨(claim2_fee_arithmetic.1 400 250 (by decide)).2.2.1,
   (claim2_fee_arithmetic.1 400 250 (by decide)).2.2.2⟩

/-- Claim C4: for every operation of the core and every input, a failed
operation (precondition check or external transfer) leaves every
persisted record unchanged: no partial balance deduction, no nonce
advance, no partially persisted record. -/
theorem claim4_failed_op_leaves_state_unchanged :
    ∀ (w : World) (op : Op) (e : Err),
      execOp w op = .error e → stepWorld w op = w :=
  fun _ _ _ h => stepWorld_of_error h

/-- Witness for claim C4: a zero deposit is rejected and commits
nothing. -/
theorem claim4_witness : stepWorld wEx (Op.createVault 1 0 true) = wEx :=
  claim4_failed_op_leaves_state_unchanged wEx (Op.createVault 1 0 true)
    Err.ZeroDeposit (by rfl)

/-- An empty deployment: nothing initialised yet. -/
def wEmpty : World :=
  { config := none
    providers := fun _ => none
    vaults := fun _ => none
    events := []
    ledger := [] }

/-- `wEx` after pausing its vault. -/
def wExPaused : World :=
  { wEx with
    vaults := updVaults wEx.vaults 1 { vaultEx with paused := true }
    events := [.PauseToggled true] }

/-- Claim C5: `register_provider` fails with `DuplicateProvider` when a
Provider record already exists for the calling authority (at most one
Provider per authority, enforced by the derived-address allocation); on
success it persists a Provider with `authority` the caller, `destination`
the supplied account and `reserved` all-zero, with no other side
effects. -/
theorem claim5_register_provider :
    (∀ w auth dest p, w.providers auth = some p →
      register_provider w auth dest = .error .DuplicateProvider ∧
      stepWorld w (.regProvider auth dest) = w) ∧
    (∀ w auth dest w', register_provider w auth dest = .ok w' →
      w.providers auth = none ∧
      w'.providers auth = some ⟨auth, dest, zeroReserved⟩ ∧
      (∀ b, b ≠ auth → w'.providers b = w.providers b) ∧
      w'.config = w.config ∧ w'.vaults = w.vaults ∧
      w'.events = w.events ∧ w'.ledger = w.ledger) ∧
    (∀ x, x ∈ zeroReserved → x = 0) := by
  refine ⟨?_, ?_, ?_⟩
  · intro w auth dest p hp
    have he := @register_provider_dup w auth dest p hp
    exact ⟨he, stepWorld_of_error he⟩
  · intro w auth dest w' h
    obtain ⟨hp, hw⟩ := register_provider_ok_inv h
    subst hw
    refine ⟨hp, by simp [updProviders], fun b hb => ?_, rfl, rfl, rfl, rfl⟩
    simp [updProviders, hb]
  · intro x hx
    simpa [zeroReserved, List.mem_replicate] using hx

/-- Witness for claim C5: registering authority 5 with destination 7 in
`wEx` persists exactly that record. -/
theorem claim5_witness :
    ({ wEx with providers :=
        (updProviders wEx.providers 5 ⟨5, 7, zeroReserved⟩) }).providers 5 =
      some ⟨5, 7, zeroReserved⟩ :=
  (claim5_register_provider.2.1 wEx 5 7 _ (by rfl)).2.1

/-- Claim C6: `create_vault` fails with `ZeroDeposit` exactly when
`deposit_amount == 0`, fails with `DuplicateVault` when a vault already
exists for the owner (leaving state unchanged), and a successful
creation with `deposit_amount > 0` yields a vault with
`balance == deposit_amount`, `nonce == 0` and `paused == false`. -/
theorem claim6_create_vault :
    (∀ w o t, create_vault w o 0 t = .error .ZeroDeposit) ∧
    (∀ w o d t e, create_vault w o d t = .error e →
      e = .ZeroDeposit → d = 0) ∧
    (∀ w o d t v, d ≠ 0 → w.vaults o = some v →
      create_vault w o d t = .error .DuplicateVault ∧
      stepWorld w (.createVault o d t) = w) ∧
    (∀ w w' o d t, create_vault w o d t = .ok w' →
      w'.vaults o = some ⟨o, d, 0, false⟩) := by
  refine ⟨?_, ?_, ?_, ?_⟩
  · intro w o t
    exact create_vault_zero
  · intro w o d t e h he
    subst he
    by_cases hd : d = 0
    · exact hd
    · exfalso
      unfold create_vault at h
      rw [if_neg hd] at h
      split at h
      · simp at h
      · split at h
        · simp at h
        · exact Except.noConfusion h
  · intro w o d t v hd hv
    have he := create_vault_dup (t := t) hd hv
    exact ⟨he, stepWorld_of_error he⟩
  · intro w w' o d t h
    obtain ⟨hd, hv, ht, hw⟩ := create_vault_ok_inv h
    subst hw
    simp [updVaults_self]

/-- Witness for claim C6: creating a second vault for owner 1 in `wEx`
fails with `DuplicateVault`. -/
theorem claim6_witness :
    create_vault wEx 1 5 true = .error .DuplicateVault :=
  (claim6_create_vault.2.2.1 wEx 1 5 true vaultEx (by decide) (by rfl)).1

/-- Claim C7: `withdraw` takes no amount parameter; when the vault is
unpaused and `balance > 0` it transfers the full current balance to the
owner and sets `balance = 0` atomically with the transfer; it fails with
`VaultPaused` when paused and `NothingToWithdraw` when `balance == 0`. -/
theorem claim7_withdraw :
    (∀ w o t v, w.vaults o = some v → v.paused = true →
      withdraw w o t = .error .VaultPaused ∧
      stepWorld w (.withdrawAll o t) = w) ∧
    (∀ w o t v, w.vaults o = some v → v.paused = false →
      v.balance = 0 → withdraw w o t = .error .NothingToWithdraw) ∧
    (∀ w w' o t v, withdraw w o t = .ok w' → w.vaults o = some v →
      v.paused = false ∧ 0 < v.balance ∧
      w'.vaults o = some { v with balance := 0 } ∧
      w'.ledger = ⟨o, o, v.balance⟩ :: w.ledger) := by
  refine ⟨?_, ?_, ?_⟩
  · intro w o t v hv hp
    have he := withdraw_paused (t := t) hv hp
    exact ⟨he, stepWorld_of_error he⟩
  · intro w o t v hv hp hb
    exact withdraw_empty hv hp hb
  · intro w w' o t v h hv
    obtain ⟨v', hv', hp, hb, ht, hw⟩ := withdraw_ok_inv h
    rw [hv] at hv'
    injection hv' with hv'
    subst hv'
    subst hw
    exact ⟨hp, hb, by simp [updVaults_self], rfl⟩

/-- Witness for claim C7: withdrawing from the paused vault of
`wExPaused` fails with `VaultPaused`. -/
theorem claim7_witness :
    withdraw wExPaused 1 true = .error .VaultPaused :=
  (claim7_withdraw.1 wExPaused 1 true { vaultEx with paused := true }
    (by rfl) (by rfl)).1

/-- Claim C8: `initialize_config` succeeds only if no ProtocolConfig
exists yet (a second call fails with `AlreadyInitialized`, never
silently overwriting), fails with `InvalidFeeRate` whenever
`fee_bps > 10000` with no config created, and on success records the
caller as `authority`. -/
theorem claim8_initialize_config :
    (∀ w c st f cfg, w.config = some cfg →
      initialize_config w c st f = .error .AlreadyInitialized ∧
      stepWorld w (.initConfig c st f) = w) ∧
    (∀ w c st f, w.config = none → f > 10000 →
      initialize_config w c st f = .error .InvalidFeeRate ∧
      stepWorld w (.initConfig c st f) = w) ∧
    (∀ w w' c st f, initialize_config w c st f = .ok w' →
      w.config = none ∧ f ≤ 10000 ∧ w'.config = some ⟨c, st, f⟩) := by
  refine ⟨?_, ?_, ?_⟩
  · intro w c st f cfg hc
    have he := @initialize_config_dup w c st f cfg hc
    exact ⟨he, stepWorld_of_error he⟩
  · intro w c st f hc hf
    have he := @initialize_config_bad_fee w c st f hc hf
    exact ⟨he, stepWorld_of_error he⟩
  · intro w w' c st f h
    obtain ⟨hc, hf, hw⟩ := initialize_config_ok_inv h
    subst hw
    exact ⟨hc, hf, rfl⟩

/-- Witness for claim C8: the spec's boundary case `fee_bps = 10001` at
config init fails with `InvalidFeeRate` and creates nothing. -/
theorem claim8_witness :
    initialize_config wEmpty 9 0 10001 = .error .InvalidFeeRate ∧
    stepWorld wEmpty (.initConfig 9 0 10001) = wEmpty :=
  claim8_initialize_config.2.1 wEmpty 9 0 10001 (by rfl) (by decide)

/-- Claim C10: when account validation succeeds, the `register_provider`
handler returns `Ok` unconditionally and assigns only the `authority`
and `destination` fields of the new Provider record; `reserved` keeps
its initialised value and the destination token account is only read,
never modified; no check relates the destination account to the calling
authority, so any token account may be registered as payout
destination. -/
theorem claim10_handler_frame :
    ∀ acc : RegisterProviderAccounts,
      handler acc = .ok { acc with provider := ({ acc.provider with
        authority := acc.authority,
        destination := acc.destination.key }) } ∧
      (∀ acc', handler acc = .ok acc' →
        acc'.provider.reserved = acc.provider.reserved ∧
        acc'.destination = acc.destination ∧
        acc'.authority = acc.authority) := by
  intro acc
  refine ⟨rfl, ?_⟩
  intro acc' h
  injection h with h
  subst h
  exact ⟨rfl, rfl, rfl⟩

/-- Witness for claim C10: a concrete registration, with a destination
token account unrelated to the signer, succeeds and leaves the
destination account and the reserved padding untouched. -/
theorem claim10_witness :
    handler ⟨5, ⟨0, 0, zeroReserved⟩, ⟨7, 9, 50⟩⟩ =
      .ok ⟨5, ⟨5, 7, zeroReserved⟩, ⟨7, 9, 50⟩⟩ :=
  (claim10_handler_frame ⟨5, ⟨0, 0, zeroReserved⟩, ⟨7, 9, 50⟩⟩).1

/-- Claim C1: `settle_batch` succeeds only when the supplied nonce
equals the vault's current nonce (a mismatch fails with `InvalidNonce`
and leaves all state unchanged), after N successful settlements the
vault nonce equals its initial nonce plus N, and every success advances
the nonce by exactly one, so it strictly increases and never repeats. -/
theorem claim1_nonce_replay_protection :
    (∀ w w' o a n d s t v, settle_batch w o a n d s t = .ok w' →
      w.vaults o = some v →
      n = v.nonce ∧
      w'.vaults o =
        some { v with balance := v.balance - a, nonce := v.nonce + 1 }) ∧
    (∀ w o a n d s t cfg v, w.config = some cfg → w.vaults o = some v →
      v.paused = false → n ≠ v.nonce →
      settle_batch w o a n d s t = .error .InvalidNonce ∧
      stepWorld w (.settleBatch o a n d s t) = w) ∧
    (∀ rs w w' o v, settleSeq w o rs = .ok w' → w.vaults o = some v →
      ∃ v', w'.vaults o = some v' ∧ v'.nonce = v.nonce + rs.length) := by
  refine ⟨?_, ?_, ?_⟩
  · intro w w' o a n d s t v h hv
    obtain ⟨cfg, v', hcfg, hv', hp, hn, ha, hb, ht, hw⟩ :=
      settle_batch_ok_inv h
    rw [hv] at hv'
    injection hv' with hv'
    subst hv'
    exact ⟨hn, settle_batch_vault h hv⟩
  · intro w o a n d s t cfg v hcfg hv hp hn
    have he := settle_batch_bad_nonce (a := a) (d := d) (s := s)
      (t := t) hcfg hv hp hn
    exact ⟨he, stepWorld_of_error he⟩
  · exact fun rs w w' o v h hv => settleSeq_nonce rs w w' v h hv

/-- Witness for claim C1: submitting nonce 5 against a vault at nonce 0
fails with `InvalidNonce`. -/
theorem claim1_witness :
    settle_batch wEx 1 400 5 2 3 true = .error .InvalidNonce :=
  (claim1_nonce_replay_protection.2.1 wEx 1 400 5 2 3 true cfgEx vaultEx
    (by rfl) (by rfl) (by rfl) (by decide)).1

/-- Claim C3: every successful `settle_batch` with parameters `amount`
and `nonce` decreases the vault balance by exactly `amount`, increases
the nonce by exactly 1, and applies the balance decrement, the nonce
increment and the external transfers as one atomic unit; any failure
commits nothing. -/
theorem claim3_settlement_effects :
    (∀ w w' o a n d s t v cfg, settle_batch w o a n d s t = .ok w' →
      w.vaults o = some v → w.config = some cfg →
      ∃ v', w'.vaults o = some v' ∧
        v'.balance + a = v.balance ∧ v'.nonce = v.nonce + 1 ∧
        w'.ledger = ⟨o, s, fee a cfg.fee_bps⟩ ::
          ⟨o, d, payout a cfg.fee_bps⟩ :: w.ledger ∧
        w'.events = .BatchSettled a n (fee a cfg.fee_bps) :: w.events) ∧
    (∀ w o a n d s t e, settle_batch w o a n d s t = .error e →
      stepWorld w (.settleBatch o a n d s t) = w) := by
  constructor
  · intro w w' o a n d s t v cfg h hv hcfg
    obtain ⟨cfg', v', hcfg', hv', hp, hn, ha, hb, ht, hw⟩ :=
      settle_batch_ok_inv h
    rw [hv] at hv'
    injection hv' with hv'
    subst hv'
    rw [hcfg] at hcfg'
    injection hcfg' with hcfg'
    subst hcfg'
    subst hw
    refine ⟨{ v with balance := v.balance - a, nonce := v.nonce + 1 },
      ?_, ?_, rfl, rfl, rfl⟩
    · simp [settledWorld, updVaults_self]
    · exact Nat.sub_add_cancel hb
  · intro w o a n d s t e h
    exact stepWorld_of_error h

/-- Witness for claim C3: the spec's end-to-end settlement of 400 at
nonce 0 from a balance of 1000 leaves balance 600 and nonce 1. -/
theorem claim3_witness :
    ∃ v', (settledWorld wEx 1 400 0 2 3 cfgEx vaultEx).vaults 1 =
        some v' ∧ v'.balance + 400 = 1000 ∧ v'.nonce = 0 + 1 :=
  match claim3_settlement_effects.1 wEx
      (settledWorld wEx 1 400 0 2 3 cfgEx vaultEx) 1 400 0 2 3 true
      vaultEx cfgEx
      (settle_batch_ok_of (by rfl) (by rfl) (by rfl) (by rfl) (by decide)
        (by decide))
      (by rfl) (by rfl) with
  | ⟨v', h1, h2, h3, _, _⟩ => ⟨v', h1, h2, h3⟩

/-- Claim C9: while a vault's pause flag is true every `settle_batch`
and `withdraw` on it fails with `VaultPaused` and mutates nothing, while
provider registration and vault creation are unaffected; toggling the
flag back to false makes settlement and withdrawal succeed again under
their other preconditions. -/
theorem claim9_pause_semantics :
    ∀ w w' caller o, emergency_pause w caller o true = .ok w' →
      (∀ a n d s t, settle_batch w' o a n d s t = .error .VaultPaused ∧
        stepWorld w' (.settleBatch o a n d s t) = w') ∧
      (∀ t, withdraw w' o t = .error .VaultPaused ∧
        stepWorld w' (.withdrawAll o t) = w') ∧
      (∀ auth dest, isOk (register_provider w' auth dest) =
        isOk (register_provider w auth dest)) ∧
      (∀ o2 d t, isOk (create_vault w' o2 d t) =
        isOk (create_vault w o2 d t)) ∧
      (∀ w'' v, emergency_pause w' caller o false = .ok w'' →
        w.vaults o = some v →
        (∀ a n d s, n = v.nonce → 0 < a → a ≤ v.balance →
          isOk (settle_batch w'' o a n d s true) = true) ∧
        (0 < v.balance → isOk (withdraw w'' o true) = true)) := by
  intro w w' caller o h
  obtain ⟨cfg, v, hcfg, hauth, hv, hw⟩ := emergency_pause_ok_inv h
  have hcfg' : w'.config = some cfg := by rw [hw]; exact hcfg
  have hv' : w'.vaults o = some { v with paused := true } := by
    rw [hw]; simp [updVaults]
  have hprov : w'.providers = w.providers := by rw [hw]
  have hvothers : ∀ x, x ≠ o → w'.vaults x = w.vaults x := by
    intro x hx
    rw [hw]
    simp [updVaults, hx]
  refine ⟨?_, ?_, ?_, ?_, ?_⟩
  · intro a n d s t
    have he := settle_batch_paused (a := a) (n := n) (d := d) (s := s)
      (t := t) hcfg' hv' rfl
    exact ⟨he, stepWorld_of_error he⟩
  · intro t
    have he := withdraw_paused (t := t) hv' rfl
    exact ⟨he, stepWorld_of_error he⟩
  · intro auth dest
    unfold register_provider
    rw [hprov]
    cases h1 : w.providers auth <;> simp [isOk]
  · intro o2 d t
    unfold create_vault
    by_cases ho : o2 = o
    · subst ho
      rw [hv', hv]
    · rw [hvothers o2 ho]
      by_cases hd : d = 0
      · simp [hd, isOk]
      · cases h2 : w.vaults o2 <;> cases t <;> simp [hd, h2, isOk]
  · intro w'' v2 hun hv2
    rw [hv] at hv2
    injection hv2 with hv2
    subst hv2
    obtain ⟨cfg2, v3, hcfg2, hauth2, hv3, hw2⟩ :=
      emergency_pause_ok_inv hun
    rw [hv'] at hv3
    injection hv3 with hv3
    subst hv3
    have hcfg'' : w''.config = some cfg := by rw [hw2]; exact hcfg'
    have hvo'' : w''.vaults o = some ⟨v.owner, v.balance, v.nonce, false⟩ := by
      rw [hw2]
      simp [updVaults]
    constructor
    · intro a n d s hn ha hb
      rw [settle_batch_ok_of hcfg'' hvo'' rfl hn ha hb]
      rfl
    · intro hb
      rw [withdraw_ok_of hvo'' rfl hb]
      rfl

/-- Witness for claim C9: after pausing the vault of `wEx`, the spec's
settlement call fails with `VaultPaused`. -/
theorem claim9_witness :
    settle_batch wExPaused 1 400 0 2 3 true = .error .VaultPaused :=
  ((claim9_pause_semantics wEx wExPaused 100 1 (by rfl)).1 400 0 2 3
    true).1

end FlowVault
